import Mathlib

set_option linter.unusedVariables false

/-!
Shallow embedding of the workflow orchestrator in `src/main.py`
(classes `WorkflowRunner` and `WorkflowSettings`).

Modelling conventions:
* JSON-shaped Python values (settings documents, internal config, dataframe
  cells) are embedded as the inductive type `JVal`.  Python `None` is
  `JVal.null`; absent dictionary keys are genuinely absent from the
  association lists.
* Python `dict.get(k)` / `dict.get(k, d)` is total lookup with a default;
  direct indexing `d[k]` is modelled in the `Except` monad and raises
  `Err.keyError` on a missing key, as CPython does.
* `dict.get` called on a non-dictionary value is modelled as returning the
  default.  (CPython would raise `AttributeError` there; all configuration
  documents of interest are JSON objects, per the spec's §6 interface.)
* Functions imported from modules that are not part of the sources
  (`src.myworkflow.util`, `.integrating`, `.running`, `.external`) are either
  modelled from the spec (doc comments starting `Modelled from the spec:`)
  or taken as parameters (`Externals`) when the spec treats them as opaque
  external collaborators.
* Pandas `NaN` cells are not modelled; `JVal.null` follows the truthiness of
  Python `None`.
-/

/-- A Python/JSON value as it appears in settings documents and dataframe
cells of `src/main.py`. -/
inductive JVal where
  | str : String → JVal
  | int : Int → JVal
  | bool : Bool → JVal
  | null : JVal
  | arr : List JVal → JVal
  | obj : List (String × JVal) → JVal
deriving Repr, Inhabited

mutual

/-- Structural boolean equality on `JVal`, modelling Python `==` on
JSON-shaped values (values of different shapes compare unequal). -/
def JVal.beq : JVal → JVal → Bool
  | .str a, .str b => a == b
  | .int a, .int b => a == b
  | .bool a, .bool b => a == b
  | .null, .null => true
  | .arr xs, .arr ys => JVal.beqList xs ys
  | .obj xs, .obj ys => JVal.beqObj xs ys
  | _, _ => false

/-- Elementwise `==` on JSON arrays. -/
def JVal.beqList : List JVal → List JVal → Bool
  | [], [] => true
  | x :: xs, y :: ys => JVal.beq x y && JVal.beqList xs ys
  | _, _ => false

/-- Entrywise `==` on JSON objects (insertion order matters, as it does not
in Python; no embedded comparison is made between composite values). -/
def JVal.beqObj : List (String × JVal) → List (String × JVal) → Bool
  | [], [] => true
  | (k, v) :: xs, (k', v') :: ys => k == k' && JVal.beq v v' && JVal.beqObj xs ys
  | _, _ => false

end

instance : BEq JVal := ⟨JVal.beq⟩

/-- Python truthiness (`bool(v)`) for the embedded values. -/
def JVal.truthy : JVal → Bool
  | .str s => !(s.isEmpty)
  | .int n => n != 0
  | .bool b => b
  | .null => false
  | .arr xs => !(xs.isEmpty)
  | .obj kvs => !(kvs.isEmpty)

/-- `isinstance(v, str)`. -/
def JVal.isStr : JVal → Bool
  | .str _ => true
  | _ => false

/-- Python `str(v)` as used by `pandas.DataFrame.astype(str)` and f-strings.
The rendering of composite values is schematic; the claims only depend on
the rendering of strings, numbers, booleans and `None`. -/
def JVal.toStr : JVal → String
  | .str s => s
  | .int n => toString n
  | .bool true => "True"
  | .bool false => "False"
  | .null => "None"
  | .arr _ => "[...]"
  | .obj _ => "{...}"

/-- `v.get k` on a JSON object; returns `none` when `v` is not an object or
the key is absent (Python's `dict.get` default `None`). -/
def JVal.get : JVal → String → Option JVal
  | .obj kvs, k => kvs.lookup k
  | _, _ => none

/-- `v.get(k, d)`. -/
def JVal.getD (v : JVal) (k : String) (d : JVal) : JVal :=
  (v.get k).getD d

/-- `k in v` for a JSON object (Python `in` tests dictionary keys). -/
def JVal.hasKey (v : JVal) (k : String) : Bool :=
  (v.get k).isSome

/-- A Python dictionary with string keys, in insertion order.  Used for
`self.paths`, dataframe rows, and tool-settings attributes. -/
abbrev Dict := List (String × JVal)

/-- `d[k] = v` on a Python dictionary: overwrite in place when the key
exists, append otherwise (insertion order is preserved). -/
def dinsert {α : Type} (d : List (String × α)) (k : String) (v : α) :
    List (String × α) :=
  if (d.lookup k).isSome then
    d.map (fun p => if p.1 = k then (k, v) else p)
  else
    d ++ [(k, v)]

theorem lookup_cons_ite {α : Type} (k a : String) (v : α) (es : List (String × α)) :
    ((k, v) :: es).lookup a = if a = k then some v else es.lookup a := by
  cases h2 : a == k
  · rw [if_neg (by simpa using h2)]
    simp [List.lookup_cons, h2]
  · rw [if_pos (by simpa using h2)]
    simp [List.lookup_cons, h2]

theorem lookup_map_overwrite {α : Type} (d : List (String × α)) (k : String) (v : α)
    (k' : String) :
    (d.map (fun p => if p.1 = k then (k, v) else p)).lookup k' =
      if k' = k then ((d.lookup k).map (fun _ => v)) else d.lookup k' := by
  induction d with
  | nil => by_cases h : k' = k <;> simp [h]
  | cons p ps ih =>
      obtain ⟨k1, v1⟩ := p
      by_cases h1 : k1 = k
      · subst h1
        by_cases h : k' = k1 <;>
          simp [h, lookup_cons_ite, ih]
      · by_cases h : k' = k1 <;> by_cases h2 : k' = k <;>
          simp_all [lookup_cons_ite, ih]

theorem lookup_append_right {α : Type} (d : List (String × α)) (k : String) (v : α)
    (k' : String) :
    (d ++ [(k, v)]).lookup k' =
      if (d.lookup k').isSome then d.lookup k'
      else if k' = k then some v else none := by
  induction d with
  | nil => by_cases h : k' = k <;> simp [lookup_cons_ite, h]
  | cons p ps ih =>
      obtain ⟨k1, v1⟩ := p
      by_cases h : k' = k1
      · simp [lookup_cons_ite, h]
      · simp only [List.cons_append, lookup_cons_ite, if_neg h, ih]

/-- The fundamental property of Python dictionary assignment: lookup after
`d[k] = v`. -/
theorem lookup_dinsert {α : Type} (d : List (String × α)) (k : String) (v : α)
    (k' : String) :
    (dinsert d k v).lookup k' = if k' = k then some v else d.lookup k' := by
  unfold dinsert
  split
  case isTrue h =>
    rw [lookup_map_overwrite]
    rcases eq_or_ne k' k with rfl | hne
    · simp only [if_pos rfl]
      obtain ⟨x, hx⟩ := Option.isSome_iff_exists.mp h
      simp [hx]
    · simp [hne]
  case isFalse h =>
    rw [lookup_append_right]
    rcases eq_or_ne k' k with rfl | hne
    · simp only [if_pos rfl]
      simp only [Option.not_isSome_iff_eq_none] at h
      simp [h]
    · rw [if_neg hne, if_neg hne]
      by_cases h2 : (d.lookup k').isSome
      · rw [if_pos h2]
      · rw [if_neg h2]
        simp only [Option.not_isSome_iff_eq_none] at h2
        rw [h2]

/-- `d.get(k)` on a dictionary / pandas row: the value, or Python `None`. -/
def dget (d : Dict) (k : String) : JVal :=
  (d.lookup k).getD .null

/-- All error values raised by the embedded code. -/
inductive Err where
  /-- `Settingserror`: a required top-level settings key is missing. -/
  | settingsRequired (keys : List String)
  /-- `Settingserror`: a required `paths` key is missing. -/
  | pathsRequired (keys : List String)
  /-- `Settingserror` "all of {required_paths} required to run {tool}". -/
  | requiredPaths (req : List JVal) (tool : String)
  /-- `Settingserror` "One of {required_settings} missing in {tool} settings". -/
  | requiredSettings (req : List JVal) (tool : String)
  /-- `Settingserror` "Any one of {combination} required to run {tool}". -/
  | optionalPaths (group : List JVal) (tool : String)
  /-- `Settingserror` "Any of {combination} is required in {tool} settings". -/
  | optionalSettings (group : List JVal) (tool : String)
  /-- `Settingserror` "toxtree module ... not supported". -/
  | toxtreeModule (m : JVal)
  /-- Python `KeyError` from direct indexing. -/
  | keyError (k : String)
  /-- Python `AttributeError` from reading a never-assigned attribute. -/
  | attributeError (a : String)
deriving Repr

/-- `d[k]` on a dictionary / pandas row: raises `KeyError` when absent. -/
def dindex (d : Dict) (k : String) : Except Err JVal :=
  match d.lookup k with
  | some v => .ok v
  | none => .error (.keyError k)

/-! ## Consensus helpers (`src/main.py` lines 133-156)

A pandas row passed to `DataFrame.apply` is modelled as a `Dict`; the
in-place mutations the helpers perform on their row argument are local to
the call (pandas does not write them back to the frame), so each helper
threads its own updated copy of the row. -/

/-- `WorkflowRunner.get_consensus_formula` (lines 133-141). -/
def get_consensus_formula (row : Dict) : Except Err JVal := do
  let row :=
    if !(dget row "sirius:molecularFormula").truthy then
      dinsert row "sirius:molecularFormula" (.str "N/A")
    else row
  if (dget row "sirius_db:molecularFormula").truthy then
    let v ← dindex row "sirius_db:molecularFormula"
    if v.isStr then pure v else dindex row "sirius:molecularFormula"
  else
    dindex row "sirius:molecularFormula"

/-- `WorkflowRunner.get_consensus_smiles` (lines 143-151).  Note that the
guard of the database branch reads key `"CF"`, not `"csifingerid_db:smiles"`. -/
def get_consensus_smiles (row : Dict) : Except Err JVal := do
  let row :=
    if !(dget row "csifingerid:smiles").truthy then
      dinsert row "csifingerid:smiles" (.str "N/A")
    else row
  if (dget row "CF").truthy then
    let v ← dindex row "csifingerid_db:smiles"
    if v.isStr then pure v else dindex row "csifingerid:smiles"
  else
    dindex row "csifingerid:smiles"

/-- `WorkflowRunner.get_consensus_class` (lines 153-156). -/
def get_consensus_class (row : Dict) (classtype : String) : Except Err JVal := do
  let row :=
    if !(dget row ("canopus:CF_" ++ classtype)).truthy then
      dinsert row ("canopus:CF_" ++ classtype) (.str "N/A")
    else row
  let v ← dindex row ("CF:" ++ classtype)
  if !(JVal.beq v (.str "N/A")) then pure v
  else dindex row ("canopus:CF_" ++ classtype)

/-- The consensus precedence rule in the spec's own words (§4.4): "prefer the
secondary value when present and is a proper string value, otherwise fall
back to the primary value, treating an absent primary as the literal
sentinel N/A before the comparison."  `JVal.null` stands for an
absent/`None` value. -/
def consensus_rule (primary secondary : JVal) : JVal :=
  let primary := if JVal.beq primary .null then JVal.str "N/A" else primary
  if secondary.isStr then secondary else primary

/-! ## Depth resolution (`WorkflowRunner.get_depths`, lines 80-98) -/

/-- A depth bucket: the integers 1-4 or the string `"N/A"` ("unscheduled"). -/
inductive Bucket where
  | b1 | b2 | b3 | b4 | na
deriving Repr, DecidableEq

/-- Position of a bucket in the fixed processing order `[1, 2, 3, 4, "N/A"]`. -/
def Bucket.idx : Bucket → Nat
  | .b1 => 0
  | .b2 => 1
  | .b3 => 2
  | .b4 => 3
  | .na => 4

/-- The `match depth` statement of `get_depths`: which bucket (if any) a raw
depth value is recognised as.  Values matching none of the `case` arms leave
the tool without an entry in the depth map. -/
def matchDepth : JVal → Option Bucket
  | .str "1" => some .b1
  | .int 1 => some .b1
  | .str "2" => some .b2
  | .int 2 => some .b2
  | .str "3" => some .b3
  | .int 3 => some .b3
  | .str "4" => some .b4
  | .int 4 => some .b4
  | .str "N/A" => some .na
  | _ => none

/-- The raw depth value `get_depths` computes for one tool:
`config.get(goal,{}).get("depth")` when truthy, otherwise
`config.get("depth","N/A")`. -/
def effectiveDepth (config : JVal) (tool goal : String) : JVal :=
  let cfg := config.getD tool (.obj [])
  let goalDepth := (cfg.getD goal (.obj [])).getD "depth" .null
  if goalDepth.truthy then goalDepth else cfg.getD "depth" (.str "N/A")

/-- `WorkflowRunner.get_depths` (lines 80-98): builds the `depths` dictionary
tool by tool; tools whose raw depth value matches no `case` arm are skipped. -/
def get_depths (config : JVal) (tools : List String) (goal : String) :
    List (String × Bucket) :=
  tools.foldl
    (fun depths tool =>
      match matchDepth (effectiveDepth config tool goal) with
      | some b => dinsert depths tool b
      | none => depths)
    []

/-! ## The scheduler trace (`WorkflowRunner.run_and_integrate_per_depth`,
lines 100-131)

The control flow of the scheduler is embedded as the list of dispatch and
transition events it performs, in program order.  Python iterates `running`
and `integrating` as sets (arbitrary order within a phase); the embedding
determinises to the order of the underlying tool lists, which none of the
claims depend on.  Run/integrate dispatch events are tagged with the value
of `current_depth` at the moment of dispatch. -/

/-- One step of the scheduler, in program order. -/
inductive Event where
  /-- `self.graph = nx.read_graphml(...)` at the start of the depth-3 pass. -/
  | loadGraph
  /-- `network_to_edgelist_and_nodes_df` plus the initial `smiles` /
  `Molecular formula` consensus columns, at the start of the depth-4 pass. -/
  | deriveProjection
  /-- `self.run_tool(tool)` inside the bucket `b`. -/
  | runDispatch (tool : String) (b : Bucket)
  /-- `self.integrate_tool(tool)` inside the bucket `b`. -/
  | integrateDispatch (tool : String) (b : Bucket)
  /-- `network_df[cf_class] = ...apply(get_consensus_class...)` (line 129). -/
  | classConsensus (classtype : String)
  /-- `self.produce_integrated_graphml()` (line 131). -/
  | serialize
deriving Repr, DecidableEq

/-- The tools of a depth map that fall due in bucket `b`
(`{tool for tool,depth in depths.items() if depth==current_depth}`). -/
def dueTools (depths : List (String × Bucket)) (b : Bucket) : List String :=
  (depths.filter (fun p => p.2 = b)).map (·.1)

/-- The events of one iteration of the `for current_depth in [1,2,3,4,"N/A"]`
loop. -/
def bucketTrace (rd idg : List (String × Bucket)) (b : Bucket) : List Event :=
  (if b = .b3 then [Event.loadGraph] else []) ++
  ((if b = .b4 then [Event.deriveProjection] else []) ++
  ((dueTools rd b).map (Event.runDispatch · b) ++
  (dueTools idg b).map (Event.integrateDispatch · b)))

/-- The full event trace of `run_and_integrate_per_depth`: the five bucket
passes of the `for current_depth in [1,2,3,4,"N/A"]` loop in order, then the
three classification consensus columns, then the final serialisation. -/
def run_and_integrate_schedule (config : JVal) (to_run to_integrate : List String) :
    List Event :=
  let rd := get_depths config to_run "running"
  let idg := get_depths config to_integrate "integration"
  bucketTrace rd idg .b1 ++
  (bucketTrace rd idg .b2 ++
  (bucketTrace rd idg .b3 ++
  (bucketTrace rd idg .b4 ++
  (bucketTrace rd idg .na ++
  ((["subclass", "class", "superclass"].map Event.classConsensus) ++
  [Event.serialize])))))

/-- The phase rank of an event: bucket passes contribute `3*idx + phase`
(transitions, then run dispatches, then integrate dispatches), the final
consensus and serialisation steps come after every bucket. -/
def Event.rank : Event → Nat
  | .loadGraph => 3 * 2
  | .deriveProjection => 3 * 3
  | .runDispatch _ b => 3 * b.idx + 1
  | .integrateDispatch _ b => 3 * b.idx + 2
  | .classConsensus _ => 15
  | .serialize => 16

/-- The bucket of a dispatch event (`none` for non-dispatch events). -/
def Event.dispatchBucket : Event → Option Bucket
  | .runDispatch _ b => some b
  | .integrateDispatch _ b => some b
  | _ => none

/-- Whether an event is an integrate dispatch. -/
def Event.isIntegrate : Event → Bool
  | .integrateDispatch _ _ => true
  | _ => false

theorem rank_mem_bucketTrace {rd idg : List (String × Bucket)} {b : Bucket}
    {e : Event} (h : e ∈ bucketTrace rd idg b) :
    3 * b.idx ≤ e.rank ∧ e.rank ≤ 3 * b.idx + 2 := by
  unfold bucketTrace at h
  simp only [List.mem_append, List.mem_map] at h
  rcases h with h | (h | (h | h))
  · rcases b with _ | _ | _ | _ | _ <;> simp_all [Event.rank, Bucket.idx]
  · rcases b with _ | _ | _ | _ | _ <;> simp_all [Event.rank, Bucket.idx]
  · obtain ⟨t, _, rfl⟩ := h
    simp only [Event.rank]
    omega
  · obtain ⟨t, _, rfl⟩ := h
    simp only [Event.rank]
    omega

theorem pairwise_rank_of_const {l : List Event} {n : Nat}
    (h : ∀ e ∈ l, Event.rank e = n) :
    l.Pairwise (fun a b => a.rank ≤ b.rank) := by
  induction l with
  | nil => exact List.Pairwise.nil
  | cons x xs ih =>
      refine List.Pairwise.cons ?_ (ih (fun e he => h e (List.mem_cons_of_mem _ he)))
      intro e he
      rw [h x (List.mem_cons_self _ _), h e (List.mem_cons_of_mem _ he)]

theorem pairwise_rank_append {l1 l2 : List Event} {n : Nat}
    (h1 : l1.Pairwise (fun a b => a.rank ≤ b.rank))
    (h2 : l2.Pairwise (fun a b => a.rank ≤ b.rank))
    (hb1 : ∀ e ∈ l1, Event.rank e ≤ n) (hb2 : ∀ e ∈ l2, n ≤ Event.rank e) :
    (l1 ++ l2).Pairwise (fun a b => a.rank ≤ b.rank) :=
  List.pairwise_append.mpr
    ⟨h1, h2, fun a ha b hb => Nat.le_trans (hb1 a ha) (hb2 b hb)⟩

theorem pairwise_rank_bucketTrace (rd idg : List (String × Bucket)) (b : Bucket) :
    (bucketTrace rd idg b).Pairwise (fun a b => a.rank ≤ b.rank) := by
  have htr1 : ∀ e ∈ (if b = .b3 then [Event.loadGraph] else []),
      Event.rank e = 3 * b.idx := by
    intro e he
    rcases b with _ | _ | _ | _ | _ <;> simp_all [Event.rank, Bucket.idx]
  have htr2 : ∀ e ∈ (if b = .b4 then [Event.deriveProjection] else []),
      Event.rank e = 3 * b.idx := by
    intro e he
    rcases b with _ | _ | _ | _ | _ <;> simp_all [Event.rank, Bucket.idx]
  have hrun : ∀ e ∈ (dueTools rd b).map (Event.runDispatch · b),
      Event.rank e = 3 * b.idx + 1 := by
    intro e he; obtain ⟨t, _, rfl⟩ := List.mem_map.mp he; rfl
  have hint : ∀ e ∈ (dueTools idg b).map (Event.integrateDispatch · b),
      Event.rank e = 3 * b.idx + 2 := by
    intro e he; obtain ⟨t, _, rfl⟩ := List.mem_map.mp he; rfl
  unfold bucketTrace
  refine pairwise_rank_append (n := 3 * b.idx) (pairwise_rank_of_const htr1) ?_
    (fun e he => Nat.le_of_eq (htr1 e he)) ?_
  · refine pairwise_rank_append (n := 3 * b.idx) (pairwise_rank_of_const htr2) ?_
      (fun e he => Nat.le_of_eq (htr2 e he)) ?_
    · refine pairwise_rank_append (n := 3 * b.idx + 1)
        (pairwise_rank_of_const hrun) (pairwise_rank_of_const hint)
        (fun e he => Nat.le_of_eq (hrun e he))
        (fun e he => by rw [hint e he]; omega)
    · intro e he
      rcases List.mem_append.mp he with h | h
      · rw [hrun e h]; omega
      · rw [hint e h]; omega
  · intro e he
    rcases List.mem_append.mp he with h | h
    · exact Nat.le_of_eq (htr2 e h).symm
    · rcases List.mem_append.mp h with h | h
      · rw [hrun e h]; omega
      · rw [hint e h]; omega

/-- The full scheduler trace is sorted by phase rank: this is the formal
content of the fixed bucket order and the run-before-integrate order. -/
theorem pairwise_rank_schedule (config : JVal) (to_run to_integrate : List String) :
    (run_and_integrate_schedule config to_run to_integrate).Pairwise
      (fun a b => a.rank ≤ b.rank) := by
  unfold run_and_integrate_schedule
  set rd := get_depths config to_run "running" with hrd
  set idg := get_depths config to_integrate "integration" with hidg
  have hub : ∀ b : Bucket, ∀ e ∈ bucketTrace rd idg b, Event.rank e ≤ 3 * b.idx + 2 :=
    fun b e he => (rank_mem_bucketTrace he).2
  have hlb : ∀ b : Bucket, ∀ e ∈ bucketTrace rd idg b, 3 * b.idx ≤ Event.rank e :=
    fun b e he => (rank_mem_bucketTrace he).1
  have htail : ∀ e ∈ (["subclass", "class", "superclass"].map Event.classConsensus)
      ++ [Event.serialize], 15 ≤ Event.rank e := by
    intro e he
    rcases List.mem_append.mp he with h | h
    · obtain ⟨t, _, rfl⟩ := List.mem_map.mp h; simp [Event.rank]
    · simp only [List.mem_singleton] at h; subst h; simp [Event.rank]
  have htailp : ((["subclass", "class", "superclass"].map Event.classConsensus)
      ++ [Event.serialize]).Pairwise (fun a b => a.rank ≤ b.rank) := by
    refine pairwise_rank_append (n := 15) (pairwise_rank_of_const (n := 15) ?_)
      (List.pairwise_singleton _ _) ?_ ?_
    · intro e he; obtain ⟨t, _, rfl⟩ := List.mem_map.mp he; rfl
    · intro e he; obtain ⟨t, _, rfl⟩ := List.mem_map.mp he
      simp [Event.rank]
    · intro e he
      simp only [List.mem_singleton] at he; subst he; simp [Event.rank]
  refine pairwise_rank_append (n := 3) (pairwise_rank_bucketTrace rd idg .b1) ?_
    (fun e he => by have := hub .b1 e he; simp [Bucket.idx] at this; omega) ?_
  · refine pairwise_rank_append (n := 6) (pairwise_rank_bucketTrace rd idg .b2) ?_
      (fun e he => by have := hub .b2 e he; simp [Bucket.idx] at this; omega) ?_
    · refine pairwise_rank_append (n := 9) (pairwise_rank_bucketTrace rd idg .b3) ?_
        (fun e he => by have := hub .b3 e he; simp [Bucket.idx] at this; omega) ?_
      · refine pairwise_rank_append (n := 12) (pairwise_rank_bucketTrace rd idg .b4) ?_
          (fun e he => by have := hub .b4 e he; simp [Bucket.idx] at this; omega) ?_
        · refine pairwise_rank_append (n := 15) (pairwise_rank_bucketTrace rd idg .na)
            htailp
            (fun e he => by have := hub .na e he; simp [Bucket.idx] at this; omega)
            htail
        · intro e he
          rcases List.mem_append.mp he with h | h
          · have := hlb .na e h; simp [Bucket.idx] at this; omega
          · have := htail e h; omega
      · intro e he
        rcases List.mem_append.mp he with h | h
        · have := hlb .b4 e h; simp [Bucket.idx] at this; omega
        · rcases List.mem_append.mp h with h | h
          · have := hlb .na e h; simp [Bucket.idx] at this; omega
          · have := htail e h; omega
    · intro e he
      rcases List.mem_append.mp he with h | h
      · have := hlb .b3 e h; simp [Bucket.idx] at this; omega
      · rcases List.mem_append.mp h with h | h
        · have := hlb .b4 e h; simp [Bucket.idx] at this; omega
        · rcases List.mem_append.mp h with h | h
          · have := hlb .na e h; simp [Bucket.idx] at this; omega
          · have := htail e h; omega
  · intro e he
    rcases List.mem_append.mp he with h | h
    · have := hlb .b2 e h; simp [Bucket.idx] at this; omega
    · rcases List.mem_append.mp h with h | h
      · have := hlb .b3 e h; simp [Bucket.idx] at this; omega
      · rcases List.mem_append.mp h with h | h
        · have := hlb .b4 e h; simp [Bucket.idx] at this; omega
        · rcases List.mem_append.mp h with h | h
          · have := hlb .na e h; simp [Bucket.idx] at this; omega
          · have := htail e h; omega

/-! ## The tabular projection and the two special transitions -/

/-- The tabular projection `self.network_df`: one row per node, keyed by the
dataframe index (the node identifier). -/
abbrev NTable := List (String × Dict)

/-- `df.apply(f, axis=1)`: the column of per-row results, first exception
aborts. -/
def applyRows (f : Dict → Except Err JVal) : NTable → Except Err (List JVal)
  | [] => .ok []
  | p :: ps =>
      match f p.2 with
      | .error e => .error e
      | .ok v =>
          match applyRows f ps with
          | .error e => .error e
          | .ok vs => .ok (v :: vs)

/-- `df[col] = df.apply(f, axis=1)`: compute the new column from every row
(an exception from any row aborts the whole `apply`), then assign it. -/
def applyCol (df : NTable) (col : String) (f : Dict → Except Err JVal) :
    Except Err NTable :=
  match applyRows f df with
  | .error e => .error e
  | .ok vals => .ok ((df.zip vals).map (fun pv => (pv.1.1, dinsert pv.1.2 col pv.2)))

/-- The `current_depth == 4` transition of `run_and_integrate_per_depth`
(lines 117-122): derive the projection from the working graph, fix the
integration join key to `"smiles"`, then compute the consensus `smiles` and
`Molecular formula` columns.  The projection derivation
(`network_to_edgelist_and_nodes_df`, a collaborator not under `src/`) is a
parameter. -/
def depth4_transition {G E : Type} (network_to_edgelist_and_nodes_df : G → NTable × E)
    (graph : G) : Except Err (NTable × E × String) := do
  let (network_df, network_edgelist) := network_to_edgelist_and_nodes_df graph
  let integration_col := "smiles"
  let network_df ← applyCol network_df "smiles" get_consensus_smiles
  let network_df ← applyCol network_df "Molecular formula" get_consensus_formula
  return (network_df, network_edgelist, integration_col)

/-- The post-loop consensus step (lines 128-129): for each of
`subclass`, `class`, `superclass` in order, recompute the column of that
name over every row of the projection. -/
def class_consensus_columns (df : NTable) : Except Err NTable :=
  ["subclass", "class", "superclass"].foldlM
    (fun df cf_class => applyCol df cf_class (fun row => get_consensus_class row cf_class))
    df

/-! ## Graph serialisation (`WorkflowRunner.produce_integrated_graphml`,
lines 158-176) -/

/-- One row of the edge list: source and target node plus edge attributes
(`nx.from_pandas_edgelist(..., edge_attr=True)` keeps all of them). -/
structure EdgeRec where
  source : String
  target : String
  attrs : Dict
deriving Repr

/-- The graph being serialised: nodes with attribute dictionaries, edges
with attribute dictionaries. -/
structure Graph where
  nodes : List (String × Dict)
  edges : List EdgeRec
deriving Repr

/-- `nx.from_pandas_edgelist(edgelist, edge_attr=True)`: the nodes are the
edge endpoints (without attributes), the edges keep their attributes. -/
def from_pandas_edgelist (el : List EdgeRec) : Graph :=
  { nodes := ((el.map (·.source) ++ el.map (·.target)).dedup).map (fun v => (v, []))
    edges := el }

/-- Modelled from the spec: `convert_missing` (imported from
`src.myworkflow.util`, which is not under `src/`).  Per §4.4 and §8.9,
"missing-value sentinels normalized to a single canonical token": every raw
empty/null marker string is replaced by the canonical sentinel `"N/A"`. -/
def convert_missing (v : JVal) : JVal :=
  match v with
  | .str s => if s ∈ ["", "nan", "NaN", "None", "null", "<NA>", "N/A"]
              then .str "N/A" else .str s
  | other => other

/-- The raw empty/null marker strings of the claim: the canonical sentinel
`"N/A"` itself is not one of them. -/
def rawMarkers : List String := ["", "nan", "NaN", "None", "null", "<NA>"]

/-- Neighbours of `v` in an edge list (undirected). -/
def neighborsOf (edges : List EdgeRec) (v : String) : List String :=
  edges.foldr
    (fun e acc =>
      if e.source = v then e.target :: acc
      else if e.target = v then e.source :: acc else acc) []

/-- Fuelled breadth-first closure used to compute a connected component. -/
def reachAux (edges : List EdgeRec) : Nat → List String → List String → List String
  | 0, seen, _ => seen
  | _ + 1, seen, [] => seen
  | n + 1, seen, v :: rest =>
      if v ∈ seen then reachAux edges n seen rest
      else reachAux edges n (v :: seen) (rest ++ neighborsOf edges v)

/-- The connected component of `v` (the fuel bounds the total work: every
step either drops a frontier entry or marks a new node seen, and each newly
seen node enqueues at most `2 * |edges|` neighbours). -/
def componentOf (g : Graph) (v : String) : List String :=
  reachAux g.edges ((g.nodes.length + 1) * (2 * g.edges.length + 2)) [] [v]

/-- Modelled from the spec: `filter_component` (imported from
`src.myworkflow.external`, which is not under `src/`).  Per §4.4, "remove
whole connected components whose node count exceeds a fixed threshold";
nodes of oversized components are removed together with their incident
edges. -/
def filter_component (g : Graph) (threshold : Nat) : Graph :=
  { nodes := g.nodes.filter (fun p => (componentOf g p.1).length ≤ threshold)
    edges := g.edges.filter (fun e =>
      (componentOf g e.source).length ≤ threshold &&
      (componentOf g e.target).length ≤ threshold) }

/-- `WorkflowRunner.produce_integrated_graphml` (lines 158-176), returning
the graph handed to `nx.write_graphml`: build the graph from the edge list,
string-coerce and missing-normalise the projection (`astype(str)` then
`.map(convert_missing)`), overlay the cleaned rows as node attributes
(adding isolated nodes for projection rows absent from the edge graph), and
apply the topology filter at threshold 100. -/
def addNodeIfAbsent (g : Graph) (nid : String) : Graph :=
  if (g.nodes.lookup nid).isSome then g
  else { g with nodes := g.nodes ++ [(nid, [])] }

def setNodeAttrs (g : Graph) (row : String × Dict) : Graph :=
  { g with nodes := g.nodes.map (fun n =>
      if n.1 = row.1 then (n.1, row.2.foldl (fun r kv => dinsert r kv.1 kv.2) n.2)
      else n) }

/-- One iteration of the `for node_ID in nodes_dict` loop (lines 169-174):
add the node when missing, then assign every cleaned attribute. -/
def integrateNodeRow (g : Graph) (row : String × Dict) : Graph :=
  setNodeAttrs (addNodeIfAbsent g row.1) row

def produce_integrated_graphml (network_df : NTable) (network_edgelist : List EdgeRec) :
    Graph :=
  let integrated_network := from_pandas_edgelist network_edgelist
  let integrated_df_as_strings : NTable :=
    network_df.map (fun p => (p.1, p.2.map (fun kv => (kv.1, JVal.str kv.2.toStr))))
  let integrated_df_cleaned : NTable :=
    integrated_df_as_strings.map
      (fun p => (p.1, p.2.map (fun kv => (kv.1, convert_missing kv.2))))
  let withNodes := integrated_df_cleaned.foldl integrateNodeRow integrated_network
  filter_component withNodes 100

/-! ## `WorkflowSettings` (`src/main.py` lines 314-459) -/

/-- Modelled from the spec: `validate_dictkeys` (imported from
`src.myworkflow.util`, which is not under `src/`).  §4.1's contract is
`validate(document, requiredKeys) -> ok|fails(MissingKeyError)` and "Top-level
validation checks only key presence": the call succeeds exactly when every
listed key is present in the dictionary.  A non-dictionary first argument
(e.g. `None` from `self.input.get(tool)`) has no keys. -/
def validate_dictkeys (d : JVal) (keys : List JVal) : Bool :=
  keys.all (fun k =>
    match k with
    | .str s => d.hasKey s
    | _ => false)

/-- `validate_dictkeys` applied to an attribute that is already a
dictionary (`self.paths`). -/
def validate_dictkeysD (d : Dict) (keys : List JVal) : Bool :=
  validate_dictkeys (.obj d) keys

/-- `WorkflowSettings.required_settings`. -/
def required_settings : List String := ["paths", "run_tools", "integrate_tools"]

/-- `WorkflowSettings.required_paths`. -/
def required_paths : List String := ["base_output_folder", "internal_settings"]

/-- `WorkflowSettings.validate_required_settings` (lines 364-369). -/
def validate_required_settings (settings : JVal) : Except Err Unit := do
  if !(validate_dictkeys settings (required_settings.map .str)) then
    throw (.settingsRequired required_settings)
  if !(validate_dictkeys (settings.getD "paths" .null) (required_paths.map .str)) then
    throw (.pathsRequired required_paths)
  return ()

/-- The four-part requirement tuple of
`WorkflowSettings.get_tool_requirements` (lines 417-424). -/
structure ToolRequirements where
  required_paths : List JVal
  required_settings : List JVal
  required_optional_paths : List (List JVal)
  required_optional_settings : List (List JVal)
deriving Repr

/-- Reading a JSON array as a Python list (requirement lists in the schema
are JSON arrays; anything else yields the `.get(...,[])` default shape). -/
def JVal.asArr : JVal → List JVal
  | .arr xs => xs
  | _ => []

/-- `WorkflowSettings.get_tool_requirements` (lines 417-424). -/
def get_tool_requirements (config : JVal) (tool goal : String) : ToolRequirements :=
  let cfg := ((config.getD tool (.obj [])).getD goal (.obj [])).getD "requirements" (.obj [])
  { required_paths := (cfg.getD "paths" (.arr [])).asArr
    required_settings := (cfg.getD "settings" (.arr [])).asArr
    required_optional_paths := ((cfg.getD "optional_paths" (.arr [])).asArr).map JVal.asArr
    required_optional_settings := ((cfg.getD "optional_settings" (.arr [])).asArr).map JVal.asArr }

/-- `WorkflowSettings.validate_tool_requirements` (lines 426-439): the four
checks in program order, raising on the first failure.  `paths` is
`self.paths`, `toolSettings` is `self.input.get(tool)`. -/
def validate_tool_requirements (paths : Dict) (toolSettings : JVal) (tool : String)
    (reqs : ToolRequirements) : Except Err Unit := do
  if !(validate_dictkeysD paths reqs.required_paths) then
    throw (.requiredPaths reqs.required_paths tool)
  if !(validate_dictkeys toolSettings reqs.required_settings) then
    throw (.requiredSettings reqs.required_settings tool)
  for combination in reqs.required_optional_paths do
    if !(validate_dictkeysD paths combination) then
      throw (.optionalPaths combination tool)
  for combination in reqs.required_optional_settings do
    if !(validate_dictkeys toolSettings combination) then
      throw (.optionalSettings combination tool)
  return ()

/-- `WorkflowRunner.available_tools`. -/
def available_tools : List String :=
  ["mzmine", "ms2lda", "sirius", "toxtree", "classyfire", "matchms"]

/-- `WorkflowRunner.available_integrations`. -/
def available_integrations : List String :=
  ["mzmine", "ms2lda", "sirius", "toxtree", "classyfire", "matchms",
   "plastchemdb", "sirius_db"]

/-- `WorkflowSettings.select_used_tools` (lines 442-444). -/
def select_used_tools (input : JVal) (avail : List String) (setting : String) :
    List String :=
  avail.filter (fun tool =>
    JVal.beq ((input.getD setting .null).getD tool .null) (.str "True"))

/-- The state of a `WorkflowSettings` instance after `__init__`. -/
structure WSettings where
  input : JVal
  config : JVal
  paths : Dict
  name : String
  output_folder : String
  to_run : List String
  to_integrate : List String
  /-- The per-tool attributes `self.mzmine`, `self.sirius`, ... assigned by
  `set_tool_settings`, keyed by tool name. -/
  props : Dict
deriving Repr

/-- One iteration of the `for tool in tools` loop of
`WorkflowSettings.set_tool_settings` (lines 377-415). -/
def set_tool_settings_step (st : WSettings) (tool : String) : WSettings :=
  let tool_settings := st.input.getD tool (.obj [])
  if tool = "mzmine" then
    { st with
      props := dinsert st.props "mzmine" tool_settings
      paths :=
        dinsert (dinsert (dinsert st.paths
          "input_mgf" (.str (st.output_folder ++ "/mzmine/mzmine_iimn_fbmn.mgf")))
          "sirius_mgf" (.str (st.output_folder ++ "/mzmine/mzmine_sirius.mgf")))
          "quant_table" (.str (st.output_folder ++ "/mzmine/mzmine_iimn_fbmn_quant_full.csv")) }
  else if tool = "sirius" then
    let sirius_loc := st.output_folder ++ "/sirius/"
    { st with
      props := dinsert st.props "sirius" tool_settings
      paths :=
        dinsert (dinsert (dinsert (dinsert st.paths
          "canopus_output" (.str (sirius_loc ++ "canopus_structure_summary.tsv")))
          "csi:fingerid_output" (.str (sirius_loc ++ "structure_identifications.tsv")))
          "sirius_tool_output" (.str (sirius_loc ++ "formula_identifications.tsv")))
          "sirius_output" (.str sirius_loc) }
  else if tool = "sirius_db" then
    let siriusdb_loc := st.output_folder ++ "/sirius_db/"
    { st with
      props := dinsert st.props "sirius_db" tool_settings
      paths :=
        dinsert (dinsert (dinsert (dinsert st.paths
          "canopus_db_output" (.str (siriusdb_loc ++ "canopus_structure_summary.tsv")))
          "csi:fingerid_db_output" (.str (siriusdb_loc ++ "structure_identifications.tsv")))
          "sirius_tool_db_output" (.str (siriusdb_loc ++ "formula_identifications.tsv")))
          "sirius_db_output" (.str siriusdb_loc) }
  else if tool = "matchms" then
    { st with
      props := dinsert st.props "matchms" tool_settings
      paths := dinsert st.paths "base_network"
        (.str (st.output_folder ++ "/base_network.graphml")) }
  else if tool = "toxtree" then
    { st with
      props := dinsert st.props "toxtree" tool_settings
      paths := dinsert st.paths "toxtree_output"
        (.str (st.output_folder ++ "/toxtree_results.csv")) }
  else if tool = "classyfire" then
    { st with
      props := dinsert st.props "classyfire" tool_settings
      paths := dinsert st.paths "classyfire_output"
        (.str (st.output_folder ++ "/classyfire_results.sdf")) }
  else if tool = "ms2lda" then
    let ms2lda_loc := st.output_folder ++ "/ms2lda"
    { st with
      props := dinsert st.props "ms2lda" tool_settings
      paths :=
        dinsert (dinsert st.paths
          "ms2lda_output" (.str ms2lda_loc))
          "ms2lda_results_db" (.str (st.output_folder ++ "/ms2lda/motifDB_optimized.xlsx")) }
  else
    st

/-- `WorkflowSettings.set_tool_settings` (lines 377-415) over a list of
tools.  Python iterates `set(self.to_run + self.to_integrate)` in
unspecified order; the embedding uses `List.dedup` order, which is
immaterial because distinct tools touch disjoint keys. -/
def set_tool_settings (st : WSettings) (tools : List String) : WSettings :=
  tools.foldl set_tool_settings_step st

/-- `WorkflowSettings.check_tool_requirements` (lines 372-375). -/
def check_tool_requirements (st : WSettings) (tools : List String) (goal : String) :
    Except Err Unit :=
  tools.foldlM
    (fun _ tool =>
      validate_tool_requirements st.paths (st.input.getD tool .null) tool
        (get_tool_requirements st.config tool goal))
    ()

/-- The state `WorkflowSettings.__init__` builds before the requirement
checks: properties, selected tools, and the tool-dependent path additions.
`config` is the parsed content of the `internal_settings` document (the file
load is an external effect) and `now` the `ctime()`-derived default name. -/
def settingsState (input config : JVal) (now : String) : WSettings :=
  let paths : Dict := match input.get "paths" with
    | some (.obj kvs) => kvs
    | _ => []
  let name := (JVal.getD (.obj paths) "name" (.str now)).toStr
  let output_folder := (dget paths "base_output_folder").toStr ++ "/" ++ name
  let to_run := select_used_tools input available_tools "run_tools"
  let to_integrate := select_used_tools input available_integrations "integrate_tools"
  let st : WSettings :=
    { input := input, config := config, paths := paths, name := name
      output_folder := output_folder, to_run := to_run
      to_integrate := to_integrate, props := [] }
  set_tool_settings st (to_run ++ to_integrate).dedup

/-- `WorkflowSettings.__init__` (lines 342-361): top-level validation, state
construction (including `set_tool_settings` on the union of the run and
integrate sets), then the four requirement-check passes in program order. -/
def WorkflowSettings_init (input config : JVal) (now : String) :
    Except Err WSettings := do
  validate_required_settings input
  let st := settingsState input config now
  check_tool_requirements st st.to_run "running"
  check_tool_requirements st st.to_integrate "integration"
  check_tool_requirements st ["all_tools"] "running"
  check_tool_requirements st ["all_tools"] "integration"
  return st

/-- `WorkflowRunner.__init__` followed by `run_all` (lines 51-78): settings
construction and validation happen first; only when they succeed does the
scheduler produce its dispatch trace. -/
def run_workflow (input config : JVal) (now : String) : Except Err (List Event) := do
  let st ← WorkflowSettings_init input config now
  return run_and_integrate_schedule st.config st.to_run st.to_integrate

/-! ## The tool dispatcher (`WorkflowRunner.run_tool` lines 178-241,
`WorkflowRunner.integrate_tool` lines 243-298)

The external analytical collaborators (everything imported from
`src.myworkflow.running`, `.integrating`, `.parsing` — modules not under
`src/`, treated by the spec, §1 and §6, as opaque interfaces) are taken as
parameters in `Externals`; each call to one is also recorded as an
`ExtCall` effect. -/

/-- `v[k]` on a JSON value: `KeyError` when `v` has no such key (a
non-subscriptable `v` — CPython `TypeError` — is collapsed into the same
error constructor). -/
def JVal.index : JVal → String → Except Err JVal
  | .obj kvs, k =>
      match kvs.lookup k with
      | some v => .ok v
      | none => .error (.keyError k)
  | _, k => .error (.keyError k)

/-- `v[k] = x` on a JSON value (same error convention as `JVal.index`). -/
def JVal.setKey : JVal → String → JVal → Except Err JVal
  | .obj kvs, k, x => .ok (.obj (dinsert kvs k x))
  | _, k, _ => .error (.keyError k)

/-- The mutable state of a `WorkflowRunner` instance. -/
structure RunnerState where
  settings : WSettings
  graph : Graph
  network_df : NTable
  network_edgelist : List EdgeRec
  integration_col : String
  /-- `self.data`, assigned by the mzmine run branch. -/
  data : JVal

/-- An invocation of an external collaborator or a file write, recorded in
program order. -/
inductive ExtCall where
  | writeSmilesCsv (rows : NTable) (output_name : String) (header : Bool)
  | runClassyfire (input_path : String) (output_path : JVal)
  | createNetworkFromMgf (input_mgf : JVal)
  | exportGraphml (g : Graph) (output_path : JVal)
  | runMs2lda (dataset : JVal) (params : List JVal)
  | getFilelistFromFolder (folder : JVal)
  | writeMzbatch (output_filename : String)
  | runMzmine (batchfn : String) (output_loc : String)
      (location userfile : JVal) (temp_folder : String)
  | runSirius (input_path output_path sirius_path formula_db instrument : JVal)
  | runToxtree (input_path output_path : String) (toxtree_path module_path : JVal)
  | parseClassyfireSdf (folder : JVal)
  | integrateDfColsToDf
  | integrateMs2ldaToDf (dataset output_folder output_database : JVal)
  | tempMetadataAdder (input_mgf metadata_csv quant_table : JVal)
  | integrateSiriusToGraph (outputs : JVal × JVal × JVal)
  | parseCramerClassifications (output : JVal)
  | readCsv (path : JVal)

/-- The external collaborator functions, abstract (spec §6): only their
interfaces matter to the orchestrator. -/
structure Externals where
  create_network_from_mgf : JVal → Graph
  get_filelist_from_folder : JVal → JVal
  write_mzbatch : JVal → JVal → JVal → String → String
  parse_classyfire_sdf : JVal → NTable
  get_merging_settings : JVal → String → JVal × String
  integrate_df_cols_to_df : NTable → NTable → JVal × String → NTable
  integrate_ms2lda_to_df : NTable → JVal → JVal → JVal → NTable
  temp_metadata_adder : NTable → JVal → JVal → JVal → NTable
  integrate_sirius_to_graph : Graph → JVal × JVal × JVal → JVal × JVal × JVal → Graph
  parse_cramer_classifications : JVal → NTable
  read_csv : JVal → NTable

/-- `WorkflowRunner.create_smiles_csv_from_df` (lines 302-308): the rows
written (`smiles` not missing) and the returned output name. -/
def create_smiles_csv_from_df (network_df : NTable) (header : Bool)
    (output_name : String) : NTable × String :=
  (network_df.filter (fun p =>
      match p.2.lookup "smiles" with
      | some v => !(JVal.beq v .null)
      | none => false),
   output_name)

/-- `WorkflowSettings.get_ms2lda_params` (lines 446-459): ten direct
dictionary reads in source order, returned in the source's tuple order. -/
def get_ms2lda_params (ms2lda : JVal) : Except Err (List JVal) := do
  let preprocessing_parameters ← ms2lda.index "preprocessing_parameters"
  let convergence_parameters ← ms2lda.index "convergence_parameters"
  let annotation_parameters ← ms2lda.index "annotation_parameters"
  let model_parameters ← ms2lda.index "model_parameters"
  let train_parameters ← ms2lda.index "train_parameters"
  let fingerprint_parameters ← ms2lda.index "fingerprint_parameters"
  let dataset_parameters ← ms2lda.index "dataset_parameters"
  let n_motifs ← ms2lda.index "n_motifs"
  let n_iterations ← ms2lda.index "n_iterations"
  let motif_parameter ← ms2lda.index "motif_parameter"
  return [preprocessing_parameters, convergence_parameters, annotation_parameters,
    model_parameters, train_parameters, fingerprint_parameters, dataset_parameters,
    n_iterations, n_motifs, motif_parameter]

/-- Reading a tool attribute (`self.mzmine`, `self.sirius`, ...): raises
`AttributeError` when `set_tool_settings` never assigned it. -/
def toolProp (st : RunnerState) (tool : String) : Except Err JVal :=
  match st.settings.props.lookup tool with
  | some v => .ok v
  | none => .error (.attributeError tool)

/-- `WorkflowRunner.run_tool` (lines 178-241): the `match tool` statement in
source order; an unmatched identifier falls through to a no-op. -/
def run_tool (ext : Externals) (st : RunnerState) (tool : String) :
    Except Err (RunnerState × List ExtCall) :=
  let paths := st.settings.paths
  if tool = "classyfire" then
    let r := create_smiles_csv_from_df st.network_df false
      (st.settings.output_folder ++ "/classyfire_input.csv")
    let output_path := dget paths "classyfire_output"
    .ok (st, [.writeSmilesCsv r.1 r.2 false, .runClassyfire r.2 output_path])
  else if tool = "matchms" then
    let graph := ext.create_network_from_mgf (dget paths "input_mgf")
    let output_path := dget paths "base_network"
    .ok (st, [.createNetworkFromMgf (dget paths "input_mgf"),
              .exportGraphml graph output_path])
  else if tool = "ms2lda" then do
    let output_path := dget paths "ms2lda_output"
    let ms2lda ← toolProp st "ms2lda"
    let dp ← ms2lda.index "dataset_parameters"
    let dp ← dp.setKey "output_folder" output_path
    let ms2lda ← ms2lda.setKey "dataset_parameters" dp
    let st := { st with settings :=
      { st.settings with props := dinsert st.settings.props "ms2lda" ms2lda } }
    let ms2lda_params ← get_ms2lda_params ms2lda
    let input_mgf := dget paths "input_mgf"
    .ok (st, [.runMs2lda input_mgf ms2lda_params])
  else if tool = "mzmine" then do
    let mzmine_location := dget paths "mzmine_location"
    let mzmine_userfile_location := dget paths "mzmine_userfile_location"
    let base_batchfile := dget paths "mzmine_base_batchfile"
    let output_loc := st.settings.output_folder ++ "/mzmine"
    let folder_list := ext.get_filelist_from_folder (dget paths "data_folder")
    let data := (paths.lookup "file_list").getD folder_list
    let st := { st with data := data }
    let mzmine_params ← toolProp st "mzmine"
    let batchfile := ext.write_mzbatch base_batchfile data mzmine_params
      (output_loc ++ "_mzbatch.mzbatch")
    .ok (st, [.getFilelistFromFolder (dget paths "data_folder"),
              .writeMzbatch (output_loc ++ "_mzbatch.mzbatch"),
              .runMzmine batchfile output_loc mzmine_location
                mzmine_userfile_location (output_loc ++ "/temp/")])
  else if tool = "sirius" then do
    let output_loc := dget paths "sirius_output"
    let sirius_path := dget paths "sirius_path"
    let input_mgf := dget paths "input_mgf"
    let sirius ← toolProp st "sirius"
    let instrument := sirius.getD "instrument" .null
    let formula_db := sirius.getD "formula_db" .null
    .ok (st, [.runSirius input_mgf output_loc sirius_path formula_db instrument])
  else if tool = "toxtree" then do
    let toxtree_loc := dget paths "toxtree_path"
    let toxtree ← toolProp st "toxtree"
    let toxtree_module := toxtree.getD "module" .null
    let config := ((st.settings.config.getD "toxtree" (.obj [])).getD
      "running" (.obj [])).getD "translations" (.obj [])
    let modules := config.getD "modules" (.obj [])
    let inModules :=
      match toxtree_module with
      | .str s => modules.hasKey s
      | _ => false
    if !inModules then
      .error (.toxtreeModule toxtree_module)
    else
      let module_path :=
        match toxtree_module with
        | .str s => modules.getD s .null
        | _ => .null
      let r := create_smiles_csv_from_df st.network_df true
        (st.settings.output_folder ++ "/toxtree_input.csv")
      let output_path := st.settings.output_folder ++ "/toxtree_results.csv"
      .ok (st, [.writeSmilesCsv r.1 r.2 true,
                .runToxtree r.2 output_path toxtree_loc module_path])
  else
    .ok (st, [])

/-- `WorkflowRunner.integrate_tool` (lines 243-298): the `match tool`
statement in source order; an unmatched identifier falls through to a
no-op. -/
def integrate_tool (ext : Externals) (st : RunnerState) (tool : String) :
    Except Err (RunnerState × List ExtCall) :=
  let paths := st.settings.paths
  if tool = "classyfire" then
    let output_folder := dget paths "classyfire_output"
    let classyfire_records := ext.parse_classyfire_sdf output_folder
    let config := (st.settings.config.getD "classyfire" (.obj [])).getD
      "integration" (.obj [])
    let integration_settings := ext.get_merging_settings config st.integration_col
    let df := ext.integrate_df_cols_to_df st.network_df classyfire_records
      integration_settings
    .ok ({ st with network_df := df },
      [.parseClassyfireSdf output_folder, .integrateDfColsToDf])
  else if tool = "ms2lda" then
    let output_folder := dget paths "ms2lda_output"
    let dataset := dget paths "input_mgf"
    let output_database := dget paths "ms2lda_results_db"
    let df := ext.integrate_ms2lda_to_df st.network_df dataset output_folder
      output_database
    .ok ({ st with network_df := df },
      [.integrateMs2ldaToDf dataset output_folder output_database])
  else if tool = "mzmine" then
    let input_mgf := dget paths "sirius_mgf"
    let quant_table := dget paths "quant_table"
    let metadata_csv := dget paths "metadata_csv"
    let df := ext.temp_metadata_adder st.network_df input_mgf metadata_csv quant_table
    .ok ({ st with network_df := df },
      [.tempMetadataAdder input_mgf metadata_csv quant_table])
  else if tool = "sirius" then
    let config := ((st.settings.config.getD "sirius" (.obj [])).getD
      "integration" (.obj [])).getD "translations" (.obj [])
    let translators := (config.getD "sirius" (.obj []),
      config.getD "csi:fingerid" (.obj []), config.getD "canopus" (.obj []))
    let outputs := (dget paths "sirius_tool_output",
      dget paths "csi:fingerid_output", dget paths "canopus_output")
    let g := ext.integrate_sirius_to_graph st.graph translators outputs
    .ok ({ st with graph := g }, [.integrateSiriusToGraph outputs])
  else if tool = "sirius_db" then
    let config := ((st.settings.config.getD "sirius_db" (.obj [])).getD
      "integration" (.obj [])).getD "translations" (.obj [])
    let translators := (config.getD "sirius" (.obj []),
      config.getD "csi:fingerid" (.obj []), config.getD "canopus" (.obj []))
    let outputs := (dget paths "sirius_tool_db_output",
      dget paths "csi:fingerid_db_output", dget paths "canopus_db_output")
    let g := ext.integrate_sirius_to_graph st.graph translators outputs
    .ok ({ st with graph := g }, [.integrateSiriusToGraph outputs])
  else if tool = "toxtree" then
    let toxtree_output := dget paths "toxtree_output"
    let toxtree_df := ext.parse_cramer_classifications toxtree_output
    let config := (st.settings.config.getD "toxtree" (.obj [])).getD
      "integration" (.obj [])
    let integration_settings := ext.get_merging_settings config st.integration_col
    let df := ext.integrate_df_cols_to_df st.network_df toxtree_df integration_settings
    .ok ({ st with network_df := df },
      [.parseCramerClassifications toxtree_output, .integrateDfColsToDf])
  else if tool = "plastchemdb" then
    let config := (st.settings.config.getD "plastchemdb" (.obj [])).getD
      "integration" (.obj [])
    let plastchem_db := dget paths "plastchem_path"
    let plastchem_df := ext.read_csv plastchem_db
    let integration_settings := ext.get_merging_settings config st.integration_col
    let df := ext.integrate_df_cols_to_df st.network_df plastchem_df
      integration_settings
    .ok ({ st with network_df := df }, [.readCsv plastchem_db, .integrateDfColsToDf])
  else
    .ok (st, [])

/-! ## Claim theorems -/

/-- C2 (code bug): the claim states that the consensus smiles value follows
the precedence rule — secondary database value when present and a proper
string, otherwise the primary (absent primary read as "N/A").  The code's
`get_consensus_smiles` instead guards the database branch on the unrelated
key `"CF"`: on a row whose only entry is `csifingerid_db:smiles = "Y"`
(primary and `CF` absent), the code returns `"N/A"` whereas the claimed
rule (`consensus_rule`) yields `"Y"`. -/
theorem c2_consensus_smiles_db_ignored :
    get_consensus_smiles [("csifingerid_db:smiles", JVal.str "Y")] =
      Except.ok (JVal.str "N/A") ∧
    consensus_rule JVal.null (JVal.str "Y") = JVal.str "Y" :=
  ⟨rfl, rfl⟩

/-- C4 (counterexample): with the internal config `{mzmine: {depth: "5"}}`,
the tool `mzmine` is in the input set but `get_depths` leaves it without any
resolved depth — the depth map is empty, contradicting "every tool in the
input set receives a resolved depth". -/
theorem c4_unrecognized_depth_dropped :
    get_depths (.obj [("mzmine", .obj [("depth", .str "5")])]) ["mzmine"] "running"
      = [] ∧ "mzmine" ∈ ["mzmine"] :=
  ⟨rfl, List.mem_singleton.mpr rfl⟩

theorem get_depths_fold_lookup (config : JVal) (goal : String) (tools : List String)
    (acc : List (String × Bucket)) (tool : String) :
    ((tools.foldl (fun depths t =>
        match matchDepth (effectiveDepth config t goal) with
        | some b => dinsert depths t b
        | none => depths) acc).lookup tool) =
      if tool ∈ tools ∧ (matchDepth (effectiveDepth config tool goal)).isSome
      then matchDepth (effectiveDepth config tool goal)
      else acc.lookup tool := by
  induction tools generalizing acc with
  | nil => simp
  | cons t ts ih =>
      rw [List.foldl_cons, ih]
      by_cases hmem : tool ∈ ts ∧ (matchDepth (effectiveDepth config tool goal)).isSome
      · rw [if_pos hmem, if_pos ⟨List.mem_cons_of_mem _ hmem.1, hmem.2⟩]
      · rw [if_neg hmem]
        rcases eq_or_ne tool t with rfl | hne
        · cases hm : matchDepth (effectiveDepth config tool goal) with
          | some b =>
              simp only [hm]
              rw [lookup_dinsert, if_pos rfl, if_pos ⟨List.mem_cons_self _ _, rfl⟩]
          | none =>
              simp only [hm]
              rw [if_neg]
              rintro ⟨_, h2⟩
              simp at h2
        · have hcond : ¬(tool ∈ t :: ts ∧
              (matchDepth (effectiveDepth config tool goal)).isSome = true) := by
            rintro ⟨hmem2, hs⟩
            exact hmem ⟨(List.mem_cons.mp hmem2).resolve_left hne, hs⟩
          rw [if_neg hcond]
          cases hm : matchDepth (effectiveDepth config t goal) with
          | some b =>
              simp only [hm]
              rw [lookup_dinsert, if_neg hne]
          | none => simp only [hm]

/-- C4 (amended): for every tool in the input set, the depth map entry is
exactly `matchDepth` of the effective depth value (the goal-specific
`depth` when truthy, else the tool-level `depth`, else `"N/A"`): a value
recognised as `"1"|1 .. "4"|4 | "N/A"` resolves to the corresponding bucket
(so every resolved depth is one of {1,2,3,4,unscheduled}), and any other
value leaves the tool silently absent from the depth map. -/
theorem c4_depth_resolution_amended (config : JVal) (tools : List String)
    (goal tool : String) (h : tool ∈ tools) :
    (get_depths config tools goal).lookup tool =
      matchDepth (effectiveDepth config tool goal) := by
  unfold get_depths
  rw [get_depths_fold_lookup]
  by_cases hs : (matchDepth (effectiveDepth config tool goal)).isSome
  · rw [if_pos ⟨h, hs⟩]
  · rw [if_neg (fun hh => hs hh.2)]
    simp only [List.lookup_nil]
    exact (Option.not_isSome_iff_eq_none.mp hs).symm

theorem c4_witness :
    "mzmine" ∈ ["mzmine"] ∧
    (get_depths (.obj [("mzmine", .obj [("depth", .int 2)])]) ["mzmine"] "running").lookup
        "mzmine" =
      matchDepth (effectiveDepth (.obj [("mzmine", .obj [("depth", .int 2)])])
        "mzmine" "running") :=
  ⟨List.mem_singleton.mpr rfl,
   c4_depth_resolution_amended _ _ _ _ (List.mem_singleton.mpr rfl)⟩

/-- C5 (code bug): with `required=[a,b]` and `optional_groups=[[c,d]]`, the
claim's first and third scenarios behave as stated (missing `b` raises an
error carrying `b`; having only `a,b` raises an error naming the group
`[c,d]`), but the second does not: a configuration with `a`, `b` and `c`
(no `d`) is claimed to pass — "at least one member of the group suffices" —
yet the code reuses the all-keys-present `validate_dictkeys` for the
optional groups, so it raises the group error as soon as any member is
missing. -/
theorem c5_optional_group_requires_all :
    validate_tool_requirements
        [("a", .str "x"), ("c", .str "x"), ("d", .str "x")] (.obj []) "tool"
        ⟨[.str "a", .str "b"], [], [[.str "c", .str "d"]], []⟩ =
      .error (.requiredPaths [.str "a", .str "b"] "tool") ∧
    JVal.str "b" ∈ [JVal.str "a", JVal.str "b"] ∧
    validate_tool_requirements
        [("a", .str "x"), ("b", .str "x"), ("c", .str "x")] (.obj []) "tool"
        ⟨[.str "a", .str "b"], [], [[.str "c", .str "d"]], []⟩ =
      .error (.optionalPaths [.str "c", .str "d"] "tool") ∧
    validate_tool_requirements
        [("a", .str "x"), ("b", .str "x")] (.obj []) "tool"
        ⟨[.str "a", .str "b"], [], [[.str "c", .str "d"]], []⟩ =
      .error (.optionalPaths [.str "c", .str "d"] "tool") :=
  ⟨rfl, by simp, rfl, rfl⟩

/-- C9: for a tool identifier outside the known variant sets, both
`run_tool` and `integrate_tool` fall through their `match` statements:
no effect is produced, no error is raised, and the runner state (graph,
projection, settings, data) is returned unchanged. -/
theorem c9_unknown_tool_noop (ext : Externals) (st : RunnerState) (tool : String)
    (h1 : tool ∉ available_tools) (h2 : tool ∉ available_integrations) :
    run_tool ext st tool = .ok (st, []) ∧
    integrate_tool ext st tool = .ok (st, []) := by
  simp only [available_tools, List.mem_cons, List.mem_singleton,
    List.not_mem_nil, or_false, not_or] at h1
  simp only [available_integrations, List.mem_cons, List.mem_singleton,
    List.not_mem_nil, or_false, not_or] at h2
  obtain ⟨hmz, hml, hsi, htx, hcf, hmm⟩ := h1
  obtain ⟨-, -, -, -, -, -, hpc, hsd⟩ := h2
  constructor
  · simp [run_tool, hmz, hml, hsi, htx, hcf, hmm]
  · simp [integrate_tool, hmz, hml, hsi, htx, hcf, hmm, hpc, hsd]

/-- An arbitrary external-collaborator instantiation for witnesses. -/
def trivialExternals : Externals :=
  { create_network_from_mgf := fun _ => ⟨[], []⟩
    get_filelist_from_folder := fun _ => .arr []
    write_mzbatch := fun _ _ _ fn => fn
    parse_classyfire_sdf := fun _ => []
    get_merging_settings := fun c col => (c, col)
    integrate_df_cols_to_df := fun df _ _ => df
    integrate_ms2lda_to_df := fun df _ _ _ => df
    temp_metadata_adder := fun df _ _ _ => df
    integrate_sirius_to_graph := fun g _ _ => g
    parse_cramer_classifications := fun _ => []
    read_csv := fun _ => [] }

/-- An arbitrary runner state for witnesses. -/
def trivialRunnerState : RunnerState :=
  { settings :=
      { input := .obj [], config := .obj [], paths := [], name := "w"
        output_folder := "/o/w", to_run := [], to_integrate := [], props := [] }
    graph := ⟨[], []⟩
    network_df := []
    network_edgelist := []
    integration_col := "smiles"
    data := .null }

theorem c9_witness :
    run_tool trivialExternals trivialRunnerState "foo" = .ok (trivialRunnerState, []) ∧
    integrate_tool trivialExternals trivialRunnerState "foo" =
      .ok (trivialRunnerState, []) :=
  c9_unknown_tool_noop trivialExternals trivialRunnerState "foo"
    (by decide) (by decide)

theorem rank_of_dispatch (e : Event) (a : Bucket) (h : e.dispatchBucket = some a) :
    e.rank = 3 * a.idx + (if e.isIntegrate = true then 2 else 1) := by
  cases e <;> simp_all [Event.dispatchBucket, Event.isIntegrate, Event.rank]

/-- C1: the scheduler trace dispatches strictly in the fixed bucket order
`1, 2, 3, 4, "N/A"` — whenever a dispatch at position `i` precedes a
dispatch at position `j`, the bucket of `i` is no later than the bucket of
`j` — and within a bucket every run dispatch precedes every integrate
dispatch: an integrate dispatch is never followed by a run dispatch of the
same bucket. -/
theorem c1_bucket_and_phase_order (config : JVal) (to_run to_integrate : List String)
    (i j : Fin (run_and_integrate_schedule config to_run to_integrate).length)
    (hij : i < j) (a b : Bucket)
    (ha : ((run_and_integrate_schedule config to_run to_integrate).get i).dispatchBucket
      = some a)
    (hb : ((run_and_integrate_schedule config to_run to_integrate).get j).dispatchBucket
      = some b) :
    a.idx ≤ b.idx ∧
    (a = b →
      ((run_and_integrate_schedule config to_run to_integrate).get i).isIntegrate = true →
      ((run_and_integrate_schedule config to_run to_integrate).get j).isIntegrate = true) := by
  have hmono := List.pairwise_iff_get.mp
    (pairwise_rank_schedule config to_run to_integrate) i j hij
  rw [rank_of_dispatch _ _ ha, rank_of_dispatch _ _ hb] at hmono
  constructor
  · cases h1 : ((run_and_integrate_schedule config to_run to_integrate).get i).isIntegrate <;>
      cases h2 : ((run_and_integrate_schedule config to_run to_integrate).get j).isIntegrate <;>
      rw [h1, h2] at hmono <;> simp at hmono <;> omega
  · intro hab h1
    subst hab
    cases h2 : ((run_and_integrate_schedule config to_run to_integrate).get j).isIntegrate
    · rw [h1, h2] at hmono
      simp at hmono
    · rfl

/-- An example configuration used by the scheduler witnesses: `mzmine` at
depth 1 and `sirius` at depth 2, both selected for running. -/
def exCfg : JVal :=
  .obj [("mzmine", .obj [("depth", .int 1)]), ("sirius", .obj [("depth", .int 2)])]

theorem c1_witness :
    Bucket.idx .b1 ≤ Bucket.idx .b2 ∧
    (Bucket.b1 = Bucket.b2 →
      ((run_and_integrate_schedule exCfg ["mzmine", "sirius"] []).get
        ⟨0, by decide⟩).isIntegrate = true →
      ((run_and_integrate_schedule exCfg ["mzmine", "sirius"] []).get
        ⟨1, by decide⟩).isIntegrate = true) :=
  c1_bucket_and_phase_order exCfg ["mzmine", "sirius"] []
    ⟨0, by decide⟩ ⟨1, by decide⟩ (by decide) .b1 .b2 (by decide) (by decide)

theorem exbind_ok {α β : Type} (a : α) (f : α → Except Err β) :
    (Except.ok a >>= f : Except Err β) = f a := rfl

theorem exbind_error {α β : Type} (e : Err) (f : α → Except Err β) :
    (Except.error e >>= f : Except Err β) = .error e := rfl

theorem applyRows_length {f : Dict → Except Err JVal} :
    ∀ {df : NTable} {vals : List JVal}, applyRows f df = .ok vals →
      vals.length = df.length := by
  intro df
  induction df with
  | nil => intro vals h; cases h; rfl
  | cons p ps ih =>
      intro vals h
      unfold applyRows at h
      cases hf : f p.2 with
      | error e => rw [hf] at h; cases h
      | ok v =>
          rw [hf] at h
          cases hr : applyRows f ps with
          | error e => rw [hr] at h; cases h
          | ok vs =>
              rw [hr] at h
              cases h
              simp [ih hr]

theorem applyCol_ok {df : NTable} {col : String} {f : Dict → Except Err JVal}
    {df' : NTable} (h : applyCol df col f = .ok df') :
    df'.length = df.length ∧
    ∀ p ∈ df', ∃ q ∈ df, ∃ v, p = (q.1, dinsert q.2 col v) := by
  unfold applyCol at h
  cases hr : applyRows f df with
  | error e => rw [hr] at h; cases h
  | ok vals =>
      rw [hr] at h
      cases h
      constructor
      · simp [applyRows_length hr]
      · intro p hp
        simp only [List.mem_map] at hp
        obtain ⟨pv, hpv, rfl⟩ := hp
        exact ⟨pv.1, (List.of_mem_zip hpv).1, pv.2, rfl⟩

theorem applyCol_col_present {df : NTable} {col : String} {f : Dict → Except Err JVal}
    {df' : NTable} (h : applyCol df col f = .ok df') :
    ∀ p ∈ df', (p.2.lookup col).isSome := by
  intro p hp
  obtain ⟨q, _, v, rfl⟩ := (applyCol_ok h).2 p hp
  simp [lookup_dinsert]

theorem applyCol_key_preserved {df : NTable} {col : String} {f : Dict → Except Err JVal}
    {df' : NTable} (h : applyCol df col f = .ok df') (k : String) (hk : k ≠ col)
    (hall : ∀ p ∈ df, (p.2.lookup k).isSome) :
    ∀ p ∈ df', (p.2.lookup k).isSome := by
  intro p hp
  obtain ⟨q, hq, v, rfl⟩ := (applyCol_ok h).2 p hp
  simpa [lookup_dinsert, hk] using hall q hq

theorem depth4_transition_ok {G E : Type} (proj : G → NTable × E) (g : G)
    {df : NTable} {el : E} {col : String}
    (h : depth4_transition proj g = .ok (df, el, col)) :
    col = "smiles" ∧ df.length = (proj g).1.length ∧
    ∀ p ∈ df, (p.2.lookup "smiles").isSome := by
  unfold depth4_transition at h
  rcases hpg : proj g with ⟨df0, el0⟩
  rw [hpg] at h
  dsimp only at h
  cases h1 : applyCol df0 "smiles" get_consensus_smiles with
  | error e => rw [h1, exbind_error] at h; cases h
  | ok df1 =>
      rw [h1, exbind_ok] at h
      cases h2 : applyCol df1 "Molecular formula" get_consensus_formula with
      | error e => rw [h2, exbind_error] at h; cases h
      | ok df2 =>
          rw [h2, exbind_ok] at h
          injection h with h'
          simp only [Prod.mk.injEq] at h'
          obtain ⟨rfl, rfl, rfl⟩ := h'
          refine ⟨rfl, ?_, ?_⟩
          · rw [(applyCol_ok h2).1, (applyCol_ok h1).1]
          · exact applyCol_key_preserved h2 "smiles" (by decide)
              (applyCol_col_present h1)

theorem count_loadGraph_bucketTrace (rd idg : List (String × Bucket)) (b : Bucket) :
    (bucketTrace rd idg b).count Event.loadGraph = if b = .b3 then 1 else 0 := by
  have h1 : ((dueTools rd b).map (Event.runDispatch · b)).count Event.loadGraph = 0 :=
    List.count_eq_zero.mpr (by simp)
  have h2 : ((dueTools idg b).map (Event.integrateDispatch · b)).count Event.loadGraph
      = 0 := List.count_eq_zero.mpr (by simp)
  unfold bucketTrace
  rcases b <;> simp [List.count_append, h1, h2]

theorem count_deriveProjection_bucketTrace (rd idg : List (String × Bucket))
    (b : Bucket) :
    (bucketTrace rd idg b).count Event.deriveProjection = if b = .b4 then 1 else 0 := by
  have h1 : ((dueTools rd b).map (Event.runDispatch · b)).count Event.deriveProjection
      = 0 := List.count_eq_zero.mpr (by simp)
  have h2 : ((dueTools idg b).map
      (Event.integrateDispatch · b)).count Event.deriveProjection = 0 :=
    List.count_eq_zero.mpr (by simp)
  unfold bucketTrace
  rcases b <;> simp [List.count_append, h1, h2]

theorem count_loadGraph_schedule (config : JVal) (to_run to_integrate : List String) :
    (run_and_integrate_schedule config to_run to_integrate).count Event.loadGraph
      = 1 := by
  have hcc : ((["subclass", "class", "superclass"].map
      Event.classConsensus).count Event.loadGraph) = 0 :=
    List.count_eq_zero.mpr (by simp)
  unfold run_and_integrate_schedule
  simp [List.count_append, count_loadGraph_bucketTrace, hcc]

theorem count_deriveProjection_schedule (config : JVal)
    (to_run to_integrate : List String) :
    (run_and_integrate_schedule config to_run to_integrate).count
      Event.deriveProjection = 1 := by
  have hcc : ((["subclass", "class", "superclass"].map
      Event.classConsensus).count Event.deriveProjection) = 0 :=
    List.count_eq_zero.mpr (by simp)
  unfold run_and_integrate_schedule
  simp [List.count_append, count_deriveProjection_bucketTrace, hcc]

/-- C6: in every scheduler trace the working graph is loaded exactly once —
after every bucket-1 and bucket-2 dispatch and before every dispatch of
buckets 3, 4 and "N/A" — and the projection is derived exactly once — after
every dispatch of buckets 1-3 and before every bucket-4 or "N/A" dispatch;
moreover the depth-4 transition fixes the integration join key to
`"smiles"` and computes a `smiles` entry for every row of the derived
projection. -/
theorem c6_transitions_at_buckets_3_and_4 (config : JVal)
    (to_run to_integrate : List String) :
    ((run_and_integrate_schedule config to_run to_integrate).count Event.loadGraph = 1 ∧
     (run_and_integrate_schedule config to_run to_integrate).count
       Event.deriveProjection = 1) ∧
    (∀ (i j : Fin (run_and_integrate_schedule config to_run to_integrate).length)
       (b : Bucket),
       (run_and_integrate_schedule config to_run to_integrate).get i = Event.loadGraph →
       ((run_and_integrate_schedule config to_run to_integrate).get j).dispatchBucket
         = some b →
       (b.idx ≤ 1 → j < i) ∧ (2 ≤ b.idx → i < j)) ∧
    (∀ (i j : Fin (run_and_integrate_schedule config to_run to_integrate).length)
       (b : Bucket),
       (run_and_integrate_schedule config to_run to_integrate).get i
         = Event.deriveProjection →
       ((run_and_integrate_schedule config to_run to_integrate).get j).dispatchBucket
         = some b →
       (b.idx ≤ 2 → j < i) ∧ (3 ≤ b.idx → i < j)) ∧
    (∀ {G E : Type} (proj : G → NTable × E) (g : G) (df : NTable) (el : E)
       (col : String),
       depth4_transition proj g = .ok (df, el, col) →
       col = "smiles" ∧ df.length = (proj g).1.length ∧
       ∀ p ∈ df, (p.2.lookup "smiles").isSome) := by
  refine ⟨⟨count_loadGraph_schedule config to_run to_integrate,
           count_deriveProjection_schedule config to_run to_integrate⟩, ?_, ?_, ?_⟩
  · intro i j b hi hb
    constructor
    · intro hble
      rcases lt_trichotomy j i with h | h | h
      · exact h
      · exfalso
        subst h
        rw [hi] at hb
        simp [Event.dispatchBucket] at hb
      · exfalso
        have hmono := List.pairwise_iff_get.mp
          (pairwise_rank_schedule config to_run to_integrate) i j h
        rw [hi, rank_of_dispatch _ _ hb] at hmono
        cases hint : ((run_and_integrate_schedule config to_run
            to_integrate).get j).isIntegrate <;>
          rw [hint] at hmono <;> simp [Event.rank] at hmono <;> omega
    · intro hbge
      rcases lt_trichotomy i j with h | h | h
      · exact h
      · exfalso
        subst h
        rw [hi] at hb
        simp [Event.dispatchBucket] at hb
      · exfalso
        have hmono := List.pairwise_iff_get.mp
          (pairwise_rank_schedule config to_run to_integrate) j i h
        rw [hi, rank_of_dispatch _ _ hb] at hmono
        cases hint : ((run_and_integrate_schedule config to_run
            to_integrate).get j).isIntegrate <;>
          rw [hint] at hmono <;> simp [Event.rank] at hmono <;> omega
  · intro i j b hi hb
    constructor
    · intro hble
      rcases lt_trichotomy j i with h | h | h
      · exact h
      · exfalso
        subst h
        rw [hi] at hb
        simp [Event.dispatchBucket] at hb
      · exfalso
        have hmono := List.pairwise_iff_get.mp
          (pairwise_rank_schedule config to_run to_integrate) i j h
        rw [hi, rank_of_dispatch _ _ hb] at hmono
        cases hint : ((run_and_integrate_schedule config to_run
            to_integrate).get j).isIntegrate <;>
          rw [hint] at hmono <;> simp [Event.rank] at hmono <;> omega
    · intro hbge
      rcases lt_trichotomy i j with h | h | h
      · exact h
      · exfalso
        subst h
        rw [hi] at hb
        simp [Event.dispatchBucket] at hb
      · exfalso
        have hmono := List.pairwise_iff_get.mp
          (pairwise_rank_schedule config to_run to_integrate) j i h
        rw [hi, rank_of_dispatch _ _ hb] at hmono
        cases hint : ((run_and_integrate_schedule config to_run
            to_integrate).get j).isIntegrate <;>
          rw [hint] at hmono <;> simp [Event.rank] at hmono <;> omega
  · intro G E proj g df el col h
    exact depth4_transition_ok proj g h

theorem c6_witness :
    (run_and_integrate_schedule exCfg ["mzmine", "sirius"] []).count Event.loadGraph
      = 1 ∧
    ((⟨0, by decide⟩ : Fin (run_and_integrate_schedule exCfg
        ["mzmine", "sirius"] []).length) < ⟨2, by decide⟩) ∧
    "smiles" = "smiles" :=
  ⟨(c6_transitions_at_buckets_3_and_4 exCfg ["mzmine", "sirius"] []).1.1,
   ((c6_transitions_at_buckets_3_and_4 exCfg ["mzmine", "sirius"] []).2.1
     ⟨2, by decide⟩ ⟨0, by decide⟩ .b1 (by decide) (by decide)).1 (by decide),
   ((c6_transitions_at_buckets_3_and_4 exCfg ["mzmine", "sirius"] []).2.2.2
     (fun _ : Unit => (([] : NTable), ())) () [] () "smiles" rfl).1⟩

/-- C3 (counterexample): the claim says the class consensus follows the same
precedence rule as the other consensus fields (database value preferred when
present and a proper string, absent values read as "N/A").  On a row with
`CF:subclass = None` and `canopus:CF_subclass = "Z"` that rule
(`consensus_rule`) yields `"Z"`, but `get_consensus_class` compares the
`CF:` value only against the literal `"N/A"`, so it returns the raw `None`. -/
theorem c3_class_consensus_counterexample :
    get_consensus_class
        [("CF:subclass", JVal.null), ("canopus:CF_subclass", JVal.str "Z")]
        "subclass" = .ok JVal.null ∧
    consensus_rule (JVal.str "Z") JVal.null = JVal.str "Z" ∧
    JVal.null ≠ JVal.str "Z" :=
  ⟨rfl, rfl, fun h => JVal.noConfusion h⟩

theorem key_ne (ct : String) : ("CF:" ++ ct) ≠ ("canopus:CF_" ++ ct) := by
  intro h
  have hlen := congrArg String.length h
  rw [String.length_append, String.length_append] at hlen
  have h3 : "CF:".length = 3 := rfl
  have h11 : "canopus:CF_".length = 11 := rfl
  rw [h3, h11] at hlen
  omega

theorem dget_eq_of_truthy {row : Dict} {k : String}
    (hc : (dget row k).truthy = true) :
    row.lookup k = some (dget row k) := by
  cases hl : row.lookup k with
  | none => rw [dget, hl] at hc; cases hc
  | some w => rw [dget, hl]; rfl

/-- C3 (amended): after all five bucket passes and before the final
serialisation, a consensus column is computed for each of `subclass`,
`class`, `superclass` over every row of the projection; per row the rule the
code implements is: return the `CF:<classtype>` value whenever it differs
from the literal string "N/A" (with no presence or string-type check on it),
otherwise return the `canopus:CF_<classtype>` value, a missing or falsy
canopus value being first replaced by the sentinel "N/A". -/
theorem c3_class_consensus_amended (config : JVal) (to_run to_integrate : List String)
    (row : Dict) (classtype : String) (v : JVal)
    (hv : row.lookup ("CF:" ++ classtype) = some v) :
    (∀ ct ∈ (["subclass", "class", "superclass"] : List String),
       Event.classConsensus ct ∈ run_and_integrate_schedule config to_run to_integrate) ∧
    (∀ (i j : Fin (run_and_integrate_schedule config to_run to_integrate).length)
       (ct : String) (b : Bucket),
       (run_and_integrate_schedule config to_run to_integrate).get i
         = .classConsensus ct →
       (((run_and_integrate_schedule config to_run to_integrate).get j).dispatchBucket
           = some b → j < i) ∧
       ((run_and_integrate_schedule config to_run to_integrate).get j
           = .serialize → i < j)) ∧
    get_consensus_class row classtype =
      .ok (if JVal.beq v (.str "N/A") = false then v
           else if (dget row ("canopus:CF_" ++ classtype)).truthy then
             dget row ("canopus:CF_" ++ classtype)
           else .str "N/A") := by
  refine ⟨?_, ?_, ?_⟩
  · intro ct hct
    simp only [run_and_integrate_schedule]
    refine List.mem_append.mpr (Or.inr ?_)
    refine List.mem_append.mpr (Or.inr ?_)
    refine List.mem_append.mpr (Or.inr ?_)
    refine List.mem_append.mpr (Or.inr ?_)
    refine List.mem_append.mpr (Or.inr ?_)
    refine List.mem_append.mpr (Or.inl ?_)
    exact List.mem_map.mpr ⟨ct, hct, rfl⟩
  · intro i j ct b hi
    have hbnd : b.idx ≤ 4 := by rcases b <;> simp [Bucket.idx]
    constructor
    · intro hb
      rcases lt_trichotomy j i with h | h | h
      · exact h
      · exfalso
        subst h
        rw [hi] at hb
        simp [Event.dispatchBucket] at hb
      · exfalso
        have hmono := List.pairwise_iff_get.mp
          (pairwise_rank_schedule config to_run to_integrate) i j h
        rw [hi, rank_of_dispatch _ _ hb] at hmono
        cases hint : ((run_and_integrate_schedule config to_run
            to_integrate).get j).isIntegrate <;>
          rw [hint] at hmono <;> simp [Event.rank] at hmono <;> omega
    · intro hj
      rcases lt_trichotomy i j with h | h | h
      · exact h
      · exfalso
        subst h
        rw [hi] at hj
        cases hj
      · exfalso
        have hmono := List.pairwise_iff_get.mp
          (pairwise_rank_schedule config to_run to_integrate) j i h
        rw [hi, hj] at hmono
        simp [Event.rank] at hmono
  · unfold get_consensus_class
    by_cases hc : (dget row ("canopus:CF_" ++ classtype)).truthy
    · rw [if_neg (by simp [hc])]
      dsimp only
      have hd : dindex row ("CF:" ++ classtype) = .ok v := by
        unfold dindex
        rw [hv]
      rw [hd, exbind_ok]
      by_cases hb : JVal.beq v (.str "N/A") = false
      · rw [hb]
        rfl
      · have hb' : JVal.beq v (.str "N/A") = true := by
          rcases h2 : JVal.beq v (.str "N/A") <;> simp_all
        rw [hb']
        unfold dindex
        rw [dget_eq_of_truthy hc]
        simp [hc]
    · rw [if_pos (by simp [hc])]
      dsimp only
      have hd : dindex (dinsert row ("canopus:CF_" ++ classtype) (.str "N/A"))
          ("CF:" ++ classtype) = .ok v := by
        unfold dindex
        rw [lookup_dinsert, if_neg (key_ne classtype), hv]
      rw [hd, exbind_ok]
      by_cases hb : JVal.beq v (.str "N/A") = false
      · rw [hb]
        rfl
      · have hb' : JVal.beq v (.str "N/A") = true := by
          rcases h2 : JVal.beq v (.str "N/A") <;> simp_all
        rw [hb']
        unfold dindex
        rw [lookup_dinsert]
        simp [hc]

theorem c3_witness :
    ([("CF:subclass", JVal.str "X")] : Dict).lookup ("CF:" ++ "subclass")
      = some (JVal.str "X") ∧
    get_consensus_class [("CF:subclass", JVal.str "X")] "subclass" =
      .ok (if JVal.beq (JVal.str "X") (.str "N/A") = false then JVal.str "X"
           else if (dget [("CF:subclass", JVal.str "X")]
               ("canopus:CF_" ++ "subclass")).truthy then
             dget [("CF:subclass", JVal.str "X")] ("canopus:CF_" ++ "subclass")
           else .str "N/A") :=
  ⟨rfl, (c3_class_consensus_amended (.obj []) [] []
    [("CF:subclass", JVal.str "X")] "subclass" (JVal.str "X") rfl).2.2⟩

/-- C7 (counterexample): on an edge list carrying a raw `None` edge
attribute, the serialised graph keeps the attribute untouched:
`produce_integrated_graphml` string-coerces and missing-normalises only the
node attributes coming from the projection, never the edge attributes taken
from the edge list, so the output contains an edge attribute that is not a
string (and is a raw null marker). -/
theorem c7_edge_attribute_not_normalized :
    (produce_integrated_graphml []
        [⟨"a", "b", [("w", JVal.null)]⟩]).edges.map (·.attrs)
      = [[("w", JVal.null)]] ∧
    JVal.null.isStr = false :=
  ⟨rfl, rfl⟩

theorem convert_missing_good (t : String) :
    ∃ s, convert_missing (.str t) = .str s ∧ s ∉ rawMarkers := by
  rw [show convert_missing (.str t) =
      (if t ∈ ["", "nan", "NaN", "None", "null", "<NA>", "N/A"]
       then JVal.str "N/A" else .str t) from rfl]
  split
  · exact ⟨"N/A", rfl, by decide⟩
  case isFalse h =>
    refine ⟨t, rfl, fun hr => h ?_⟩
    simp only [rawMarkers, List.mem_cons, List.not_mem_nil, or_false] at hr
    rcases hr with rfl | rfl | rfl | rfl | rfl | rfl <;> decide

theorem mem_dinsert {α : Type} {d : List (String × α)} {k : String} {v : α}
    {p : String × α} (h : p ∈ dinsert d k v) : p = (k, v) ∨ p ∈ d := by
  unfold dinsert at h
  split at h
  · obtain ⟨q, hq, hpq⟩ := List.mem_map.mp h
    by_cases h1 : q.1 = k
    · left
      rw [← hpq]
      simp [h1]
    · right
      rw [← hpq]
      simpa [h1] using hq
  · rcases List.mem_append.mp h with h | h
    · right; exact h
    · left; simpa using h

theorem foldl_dinsert_good (P : JVal → Prop) (kvs : Dict) :
    ∀ (r : Dict), (∀ q ∈ r, P q.2) → (∀ q ∈ kvs, P q.2) →
      ∀ q ∈ kvs.foldl (fun r kv => dinsert r kv.1 kv.2) r, P q.2 := by
  induction kvs with
  | nil => intro r h1 _ q hq; exact h1 q hq
  | cons kv kvs ih =>
      intro r h1 h2 q hq
      rw [List.foldl_cons] at hq
      refine ih (dinsert r kv.1 kv.2) ?_
        (fun q' hq' => h2 q' (List.mem_cons_of_mem _ hq')) q hq
      intro q' hq'
      rcases mem_dinsert hq' with rfl | hmem
      · exact h2 kv (List.mem_cons_self _ _)
      · exact h1 q' hmem

/-- Node-attribute invariant used for C7. -/
def nodesGood (P : JVal → Prop) (g : Graph) : Prop :=
  ∀ p ∈ g.nodes, ∀ kv ∈ p.2, P kv.2

theorem integrateNodeRow_good (P : JVal → Prop) (g : Graph) (row : String × Dict)
    (hg : nodesGood P g) (hrow : ∀ kv ∈ row.2, P kv.2) :
    nodesGood P (integrateNodeRow g row) := by
  have hadd : nodesGood P (addNodeIfAbsent g row.1) := by
    unfold addNodeIfAbsent
    split
    · exact hg
    · intro p hp kv hkv
      rcases List.mem_append.mp hp with hp | hp
      · exact hg p hp kv hkv
      · simp only [List.mem_singleton] at hp
        subst hp
        simp at hkv
  intro p hp kv hkv
  unfold integrateNodeRow setNodeAttrs at hp
  simp only [List.mem_map] at hp
  obtain ⟨n, hn, hpn⟩ := hp
  by_cases h1 : n.1 = row.1
  · rw [← hpn] at hkv
    simp only [h1, if_pos rfl] at hkv
    exact foldl_dinsert_good P row.2 n.2 (fun q hq => hadd n hn q hq) hrow kv hkv
  · rw [← hpn] at hkv
    simp only [if_neg h1] at hkv
    exact hadd n hn kv hkv

theorem foldl_integrateNodeRow_good (P : JVal → Prop) (rows : List (String × Dict)) :
    ∀ (g : Graph), nodesGood P g → (∀ r ∈ rows, ∀ kv ∈ r.2, P kv.2) →
      nodesGood P (rows.foldl integrateNodeRow g) := by
  induction rows with
  | nil => intro g hg _; exact hg
  | cons row rows ih =>
      intro g hg hrows
      rw [List.foldl_cons]
      exact ih _ (integrateNodeRow_good P g row hg
          (hrows row (List.mem_cons_self _ _)))
        (fun r hr => hrows r (List.mem_cons_of_mem _ hr))

theorem foldl_integrateNodeRow_edges (rows : List (String × Dict)) :
    ∀ (g : Graph), (rows.foldl integrateNodeRow g).edges = g.edges := by
  induction rows with
  | nil => intro g; rfl
  | cons row rows ih =>
      intro g
      rw [List.foldl_cons, ih]
      unfold integrateNodeRow setNodeAttrs addNodeIfAbsent
      split <;> rfl

/-- C7 (amended): in the serialised graph every node attribute value is a
string and none is a raw empty/null marker (`astype(str)` followed by
`convert_missing` normalises them all to the canonical sentinel), but edge
attributes are carried over from the edge list unmodified — they are neither
string-coerced nor missing-normalised. -/
theorem c7_node_attributes_normalized (network_df : NTable)
    (network_edgelist : List EdgeRec) :
    (∀ p ∈ (produce_integrated_graphml network_df network_edgelist).nodes,
       ∀ kv ∈ p.2, ∃ s, kv.2 = JVal.str s ∧ s ∉ rawMarkers) ∧
    (∀ e ∈ (produce_integrated_graphml network_df network_edgelist).edges,
       e ∈ network_edgelist) := by
  set P : JVal → Prop := fun v => ∃ s, v = JVal.str s ∧ s ∉ rawMarkers with hP
  unfold produce_integrated_graphml
  constructor
  · intro p hp kv hkv
    simp only [filter_component, List.mem_filter] at hp
    refine foldl_integrateNodeRow_good P _ (from_pandas_edgelist network_edgelist)
      ?_ ?_ p hp.1 kv hkv
    · intro q hq kv' hkv'
      unfold from_pandas_edgelist at hq
      simp only [List.mem_map] at hq
      obtain ⟨nid, _, rfl⟩ := hq
      simp at hkv'
    · intro r hr kv' hkv'
      simp only [List.mem_map] at hr
      obtain ⟨r1, hr1, rfl⟩ := hr
      obtain ⟨r0, hr0, rfl⟩ := hr1
      simp only [List.mem_map] at hkv'
      obtain ⟨kv0, ⟨kv1, hkv1, rfl⟩, rfl⟩ := hkv'
      exact convert_missing_good _
  · intro e he
    simp only [filter_component, List.mem_filter] at he
    rw [foldl_integrateNodeRow_edges] at he
    exact he.1

theorem c7_witness :
    (("n", [("a", JVal.str "N/A")]) ∈
        (produce_integrated_graphml [("n", [("a", JVal.null)])] []).nodes) ∧
    (∃ s, (JVal.str "N/A") = JVal.str s ∧ s ∉ rawMarkers) :=
  ⟨List.Mem.head _,
   (c7_node_attributes_normalized [("n", [("a", JVal.null)])] []).1
     ("n", [("a", JVal.str "N/A")]) (List.Mem.head _)
     ("a", JVal.str "N/A") (List.Mem.head _)⟩

theorem foldlM_validate_ok {β : Type} (f : β → Except Err Unit) :
    ∀ (l : List β), (l.foldlM (fun _ b => f b) () = Except.ok ()) →
      ∀ b ∈ l, f b = .ok () := by
  intro l
  induction l with
  | nil => intro _ b hb; cases hb
  | cons x xs ih =>
      intro h b hb
      rw [List.foldlM_cons] at h
      cases hf : f x with
      | error e => rw [hf, exbind_error] at h; cases h
      | ok u =>
          cases u
          rw [hf, exbind_ok] at h
          rcases List.mem_cons.mp hb with rfl | hb'
          · exact hf
          · exact ih h b hb'

/-- C8: `WorkflowSettings.__init__` validates the requirements of every
selected run tool (goal "running"), every selected integration tool (goal
"integration") and the special `all_tools` identifier for both goals —
construction succeeds only when all of them pass — and when construction
fails, the whole workflow fails with the same first error and produces no
scheduler trace, so no run or integrate dispatch ever happens. -/
theorem c8_validation_before_execution (input config : JVal) (now : String) :
    (∀ st, WorkflowSettings_init input config now = .ok st →
      (∀ tool ∈ st.to_run,
        validate_tool_requirements st.paths (st.input.getD tool .null) tool
          (get_tool_requirements st.config tool "running") = .ok ()) ∧
      (∀ tool ∈ st.to_integrate,
        validate_tool_requirements st.paths (st.input.getD tool .null) tool
          (get_tool_requirements st.config tool "integration") = .ok ()) ∧
      validate_tool_requirements st.paths (st.input.getD "all_tools" .null) "all_tools"
        (get_tool_requirements st.config "all_tools" "running") = .ok () ∧
      validate_tool_requirements st.paths (st.input.getD "all_tools" .null) "all_tools"
        (get_tool_requirements st.config "all_tools" "integration") = .ok ()) ∧
    (∀ e, WorkflowSettings_init input config now = .error e →
      run_workflow input config now = .error e) := by
  constructor
  · intro st hok
    unfold WorkflowSettings_init at hok
    cases hv : validate_required_settings input with
    | error e => rw [hv, exbind_error] at hok; cases hok
    | ok u =>
        cases u
        rw [hv, exbind_ok] at hok
        dsimp only at hok
        cases h1 : check_tool_requirements (settingsState input config now)
            (settingsState input config now).to_run "running" with
        | error e => rw [h1, exbind_error] at hok; cases hok
        | ok u =>
            cases u
            rw [h1, exbind_ok] at hok
            cases h2 : check_tool_requirements (settingsState input config now)
                (settingsState input config now).to_integrate "integration" with
            | error e => rw [h2, exbind_error] at hok; cases hok
            | ok u =>
                cases u
                rw [h2, exbind_ok] at hok
                cases h3 : check_tool_requirements (settingsState input config now)
                    ["all_tools"] "running" with
                | error e => rw [h3, exbind_error] at hok; cases hok
                | ok u =>
                    cases u
                    rw [h3, exbind_ok] at hok
                    cases h4 : check_tool_requirements (settingsState input config now)
                        ["all_tools"] "integration" with
                    | error e => rw [h4, exbind_error] at hok; cases hok
                    | ok u =>
                        cases u
                        rw [h4, exbind_ok] at hok
                        cases hok
                        refine ⟨foldlM_validate_ok _ _ h1,
                                foldlM_validate_ok _ _ h2, ?_, ?_⟩
                        · exact foldlM_validate_ok _ _ h3 "all_tools"
                            (List.mem_singleton.mpr rfl)
                        · exact foldlM_validate_ok _ _ h4 "all_tools"
                            (List.mem_singleton.mpr rfl)
  · intro e he
    unfold run_workflow
    rw [he, exbind_error]

theorem c8_witness :
    run_workflow (.obj []) (.obj []) "t" =
      .error (.settingsRequired ["paths", "run_tools", "integrate_tools"]) :=
  (c8_validation_before_execution (.obj []) (.obj []) "t").2 _ rfl

theorem dinsert_isSome_mono {α : Type} {d : List (String × α)} {k' : String}
    (k : String) (v : α) (h : (d.lookup k').isSome) :
    ((dinsert d k v).lookup k').isSome := by
  rw [lookup_dinsert]
  split
  · rfl
  · exact h

theorem step_paths_mono (st : WSettings) (t : String) {k : String}
    (h : (st.paths.lookup k).isSome) :
    ((set_tool_settings_step st t).paths.lookup k).isSome := by
  unfold set_tool_settings_step
  split_ifs <;> (repeat apply dinsert_isSome_mono) <;> exact h

theorem set_tool_settings_paths_mono (tools : List String) :
    ∀ (st : WSettings) {k : String}, (st.paths.lookup k).isSome →
      ((set_tool_settings st tools).paths.lookup k).isSome := by
  induction tools with
  | nil => intro st k h; exact h
  | cons t ts ih =>
      intro st k h
      exact ih (set_tool_settings_step st t) (step_paths_mono st t h)

theorem mzmine_step_keys (st : WSettings) :
    ((set_tool_settings_step st "mzmine").paths.lookup "input_mgf").isSome ∧
    ((set_tool_settings_step st "mzmine").paths.lookup "sirius_mgf").isSome ∧
    ((set_tool_settings_step st "mzmine").paths.lookup "quant_table").isSome := by
  unfold set_tool_settings_step
  rw [if_pos rfl]
  simp [lookup_dinsert]

theorem set_tool_settings_mzmine_keys (tools : List String) :
    ∀ (st : WSettings), "mzmine" ∈ tools →
      ((set_tool_settings st tools).paths.lookup "input_mgf").isSome ∧
      ((set_tool_settings st tools).paths.lookup "sirius_mgf").isSome ∧
      ((set_tool_settings st tools).paths.lookup "quant_table").isSome := by
  induction tools with
  | nil => intro st h; cases h
  | cons t ts ih =>
      intro st hmem
      rcases List.mem_cons.mp hmem with rfl | hmem'
      · have h3 := mzmine_step_keys st
        exact ⟨set_tool_settings_paths_mono ts _ h3.1,
               set_tool_settings_paths_mono ts _ h3.2.1,
               set_tool_settings_paths_mono ts _ h3.2.2⟩
      · exact ih (set_tool_settings_step st t) hmem'

/-- Example settings document for C10: `mzmine` selected for running, and
`input_mgf` nowhere in the document's `paths`. -/
def c10input : JVal :=
  .obj [("paths", .obj [("base_output_folder", .str "/out"),
                        ("internal_settings", .str "internal.json")]),
        ("run_tools", .obj [("mzmine", .str "True")]),
        ("integrate_tools", .obj [])]

/-- Example requirement schema for C10: `mzmine`'s running goal requires the
path `input_mgf`. -/
def c10config : JVal :=
  .obj [("mzmine", .obj [("running", .obj [("requirements",
    .obj [("paths", .arr [.str "input_mgf"])])])])]

/-- C10: selecting `mzmine` (for running or integration) makes
`set_tool_settings` — which `__init__` invokes on the union of the run and
integrate sets before any requirement check — register the derived artifact
paths `input_mgf`, `sirius_mgf` and `quant_table` in `self.paths`; hence a
declared required path can be satisfied by tool selection alone: the example
document selects `mzmine`, lists no `input_mgf` path, and a schema requiring
`input_mgf` for mzmine running still validates successfully. -/
theorem c10_tool_selection_populates_paths (input config : JVal) (now : String)
    (h : "mzmine" ∈ select_used_tools input available_tools "run_tools" ++
         select_used_tools input available_integrations "integrate_tools") :
    (((settingsState input config now).paths.lookup "input_mgf").isSome ∧
     ((settingsState input config now).paths.lookup "sirius_mgf").isSome ∧
     ((settingsState input config now).paths.lookup "quant_table").isSome) ∧
    (∃ st, WorkflowSettings_init c10input c10config "t" = .ok st) ∧
    (c10input.getD "paths" .null).hasKey "input_mgf" = false ∧
    JVal.str "input_mgf" ∈ (get_tool_requirements c10config "mzmine"
      "running").required_paths := by
  refine ⟨?_, ⟨_, rfl⟩, rfl, List.Mem.head _⟩
  unfold settingsState
  dsimp only
  exact set_tool_settings_mzmine_keys _ _ (List.mem_dedup.mpr h)

theorem c10_witness :
    (((settingsState c10input c10config "t").paths.lookup "input_mgf").isSome ∧
     ((settingsState c10input c10config "t").paths.lookup "sirius_mgf").isSome ∧
     ((settingsState c10input c10config "t").paths.lookup "quant_table").isSome) ∧
    (∃ st, WorkflowSettings_init c10input c10config "t" = .ok st) ∧
    (c10input.getD "paths" .null).hasKey "input_mgf" = false ∧
    JVal.str "input_mgf" ∈ (get_tool_requirements c10config "mzmine"
      "running").required_paths :=
  c10_tool_selection_populates_paths c10input c10config "t" (by decide)
